import Mathlib

/-!
# FarmConnect crop-price dashboard: verification of the price-store and advisor logic

Shallow embedding of `src/app.py` (the only source file).  The app keeps its
price history in a flat CSV file (`indian_prices.csv`), loads it with pandas
into a DataFrame, computes a latest price, a previous-day delta and a trailing
average per commodity, renders a sell/hold/stable recommendation, and lets a
password-gated admin replace the CSV wholesale or append one manually entered
row.

Modelling conventions:
* Prices are exact rationals (`ℚ`); the Python code uses IEEE doubles, which
  round-trip the integral and decimal prices appearing here exactly.
* Calendar dates are day numbers (`ℕ`); pandas `to_datetime(errors="coerce")`
  is modelled by a cell parser that either recovers a day number or fails,
  matching the only property the code depends on: a row's date cell parses or
  the row is dropped.  A Date-column text cell that pandas can parse is
  represented as `Value.date d` (the day number its text denotes); a text
  cell that cannot be parsed stays `Value.str`.
* A pandas DataFrame is a header (list of column names) plus rows of cells,
  each row carrying its pandas index label (`read_csv` assigns 0,1,2,… before
  any row is dropped); `iloc` is positional, `loc` is label-based, exactly as
  in pandas.
* A cell written by `to_csv` and read back by `read_csv` is modelled as the
  identical cell: numeric cells round-trip exactly, and a serialized date cell
  is represented by the `Value.date` constructor itself (its text form parses
  back to the same day number, which is all the code relies on).
-/

/-- A tracked commodity; the code hard-codes this set
(`crops = ['Wheat', 'Rice', 'Potatoes', 'Tomatoes']`, `src/app.py:127`). -/
inductive Commodity
  | Wheat
  | Rice
  | Potatoes
  | Tomatoes
deriving DecidableEq

/-- The CSV column name of a commodity. -/
def Commodity.colName : Commodity → String
  | .Wheat => "Wheat"
  | .Rice => "Rice"
  | .Potatoes => "Potatoes"
  | .Tomatoes => "Tomatoes"

/-- `FALLBACK_PRICES` (`src/app.py:13`‑`18`), ₹ per quintal. -/
def FALLBACK_PRICES : Commodity → ℚ
  | .Wheat => 2250
  | .Rice => 3150
  | .Potatoes => 850
  | .Tomatoes => 1250

/-- One DataFrame cell: a number, a raw text cell, a parsed calendar date
(day number), or a missing value (pandas NaN). -/
inductive Value
  | num (q : ℚ)
  | str (s : String)
  | date (d : ℕ)
  | nan
deriving DecidableEq

/-- `pd.to_datetime(cell, errors="coerce")` on one cell: a parseable date
cell recovers its day number; unparseable text, numbers and NaN coerce to
NaT (failure). -/
def parseDateCell : Value → Option ℕ
  | .date d => some d
  | _ => none

/-- A pandas DataFrame: column names plus rows; each row carries its pandas
index label (the `RangeIndex` position assigned by `read_csv`) and one cell
per column. -/
structure DataFrame where
  header : List String
  rows : List (ℕ × List Value)
deriving DecidableEq

/-- The empty DataFrame `pd.DataFrame()` (no columns, no rows). -/
def emptyDF : DataFrame := ⟨[], []⟩

/-- The on-disk CSV as parsed content: the header line plus one cell list per
data line, without index labels (the app always writes `index=False`). -/
structure StoredFrame where
  header : List String
  rows : List (List Value)
deriving DecidableEq

/-- The state of the backing file `indian_prices.csv`: absent
(`FileNotFoundError`), present but unreadable by `pd.read_csv` (any other
exception), or a parseable CSV. -/
inductive BackingFile
  | missing
  | unreadable
  | csv (f : StoredFrame)
deriving DecidableEq

/-- Outcome signalled to the operator by `load_price_data`
(`st.error` / `st.warning` / silent success). -/
inductive LoadSignal
  | ok
  | missingDateColumn
  | storeMissing
  | loadFailed
deriving DecidableEq

/-- Python `str.strip()` on a column name: drop whitespace from both ends
(written out over the character list so that it evaluates on concrete
inputs). -/
def stripName (s : String) : String :=
  ⟨(((s.data.dropWhile Char.isWhitespace).reverse.dropWhile
      Char.isWhitespace).reverse)⟩

/-- `df.columns.str.strip()` (`src/app.py:26`). -/
def stripHeader (header : List String) : List String := header.map stripName

/-- Index of the Date column in a (stripped) header. -/
def dateIdx (header : List String) : ℕ := header.indexOf "Date"

/-- Date conversion of one labelled row (`src/app.py:34`‑`37`): parse the
cell in the Date column; on success store the parsed date back into that
column, on failure drop the row. -/
def convertRow (di : ℕ) (r : ℕ × List Value) : Option (ℕ × List Value) :=
  match (r.2.get? di).bind parseDateCell with
  | some d => some (r.1, r.2.set di (.date d))
  | none => none

/-- `load_price_data()` (`src/app.py:20`‑`49`), as a function of today's date
and the backing-file state. Returns the loaded DataFrame and the signal shown
to the operator. -/
def load_price_data (today : ℕ) : BackingFile → DataFrame × LoadSignal
  | .missing =>
      (⟨["Date", "Wheat", "Rice", "Potatoes", "Tomatoes"],
        [(0, [.date today, .num 2250, .num 3150, .num 850, .num 1250])]⟩,
       .storeMissing)
  | .unreadable => (emptyDF, .loadFailed)
  | .csv f =>
      let hdr := stripHeader f.header
      if "Date" ∈ hdr then
        (⟨hdr, (f.rows.enum.filterMap (convertRow (dateIdx hdr)))⟩, .ok)
      else
        (emptyDF, .missingDateColumn)

/-! ## Reading a loaded DataFrame (the dashboard layer) -/

/-- Column lookup in one row by column name (`row[name]` in pandas): the
position of the name in the header, then the cell there. `none` models the
`KeyError` the app would crash with on a missing column. -/
def rowValue (df : DataFrame) (row : List Value) (name : String) : Option Value :=
  (df.header.findIdx? (· = name)).bind row.get?

/-- The numeric content of a commodity cell in a row; `none` models a missing
column or a non-numeric cell (either crashes the dashboard). -/
def rowPrice (df : DataFrame) (row : List Value) (c : Commodity) : Option ℚ :=
  match rowValue df row c.colName with
  | some (.num q) => some q
  | _ => none

/-- The date of a labelled row (0 when absent or unparsed), used only to
express "most recent" in claims. -/
def rowDate (df : DataFrame) (r : ℕ × List Value) : ℕ :=
  match rowValue df r.2 "Date" with
  | some (.date d) => d
  | _ => 0

/-- `latest = price_df.iloc[-1] if not price_df.empty else FALLBACK_PRICES`
followed by `latest[crop]` (`src/app.py:126`, `137`, `143`): the positionally
last row's value, or the static fallback when the DataFrame is empty. -/
def latestValue (df : DataFrame) (c : Commodity) : Option ℚ :=
  match df.rows.getLast? with
  | some r => rowPrice df r.2 c
  | none => some (FALLBACK_PRICES c)

/-- `delta = latest[crop] - price_df.iloc[-2][crop] if len(price_df) > 1
else 0` (`src/app.py:137`): `iloc[-2]` is the positionally second-to-last
row. -/
def previousDelta (df : DataFrame) (c : Commodity) : Option ℚ :=
  if 1 < df.rows.length then
    match latestValue df c,
          (df.rows.get? (df.rows.length - 2)).bind (fun r => rowPrice df r.2 c) with
    | some a, some b => some (a - b)
    | _, _ => none
  else some 0

/-- The recommendation rendered in tab 2. -/
inductive Recommendation
  | sell
  | hold
  | stable
deriving DecidableEq

/-- Round a rational to the nearest integer, ties to even (the IEEE-754
default tie rule). -/
def rne (y : ℚ) : ℤ :=
  if y - ⌊y⌋ = 1/2 then (if Even ⌊y⌋ then ⌊y⌋ else ⌊y⌋ + 1) else round y

/-- Binary64 rounding of a rational: round to nearest with a 53-bit
significand, ties to even, unbounded exponent.  This is exactly IEEE-754
double rounding for every value in the normal binary64 range, which covers
all prices, averages and threshold products this program computes; overflow,
subnormals and NaN lie outside the model. -/
def fl (x : ℚ) : ℚ :=
  if x = 0 then 0
  else (rne (x / 2 ^ (Int.log 2 |x| - 52)) : ℚ) * 2 ^ (Int.log 2 |x| - 52)

/-- One IEEE-754 double multiplication: the exact product, rounded once. -/
def dmul (a b : ℚ) : ℚ := fl (a * b)

/-- The recommendation branch (`src/app.py:187`‑`208`): Good to Sell when
`current_price > avg_price * 1.15`, Hold Stock when
`current_price < avg_price * 0.85`, Market Stable otherwise.  The program
computes in IEEE doubles: the source literals `1.15` and `0.85` denote the
nearest doubles `fl 1.15` and `fl 0.85`, the product with `avg_price` is
rounded once (`dmul`), and the comparison itself is exact.  `current` and
`average` stand for the double values the program holds. -/
def recommend (current average : ℚ) : Recommendation :=
  if current > dmul average (fl 1.15) then .sell
  else if current < dmul average (fl 0.85) then .hold
  else .stable

/-! ## The admin write paths (tab 3) -/

/-- Outcome of the CSV-upload commit handler; `schemaMismatch` is the
rejection the specification describes for a history missing a required
commodity column. -/
inductive UploadResult
  | success
  | schemaMismatch
  | readError
deriving DecidableEq

/-- An uploaded file: either `pd.read_csv(new_file)` raises (caught at
`src/app.py:251`) or it parses to a CSV content. -/
inductive UploadBlob
  | unreadable
  | csv (f : StoredFrame)
deriving DecidableEq

/-- The Commit Changes handler (`src/app.py:240`‑`252`): a readable upload is
written to `PRICE_FILE` verbatim by `new_df.to_csv(PRICE_FILE, index=False)`
with no validation of its columns; an unreadable upload only shows an error.
Returns the new backing-file state and the reported outcome. -/
def commitChanges (new_file : UploadBlob) (fs : BackingFile) :
    BackingFile × UploadResult :=
  match new_file with
  | .unreadable => (fs, .readError)
  | .csv f => (.csv f, .success)

/-- The values submitted through the manual-entry form
(`src/app.py:256`‑`273`). -/
structure ManualEntry where
  date : ℕ
  wheat : ℚ
  rice : ℚ
  potatoes : ℚ
  tomatoes : ℚ
deriving DecidableEq

/-- Alignment of the `new_entry` dict to one column of the DataFrame, as
pandas aligns a dict assigned to a row by column name (absent names become
NaN). -/
def entryValue (e : ManualEntry) (name : String) : Value :=
  if name = "Date" then .date e.date
  else if name = "Wheat" then .num e.wheat
  else if name = "Rice" then .num e.rice
  else if name = "Potatoes" then .num e.potatoes
  else if name = "Tomatoes" then .num e.tomatoes
  else .nan

/-- The row that `price_df.loc[len(price_df)] = new_entry` writes, aligned to
the DataFrame's columns. -/
def entryRow (df : DataFrame) (e : ManualEntry) : List Value :=
  df.header.map (entryValue e)

/-- Label-based row assignment `df.loc[label] = row`: overwrite the row with
that index label when one exists, otherwise append a new row with that
label. -/
def locSet (df : DataFrame) (label : ℕ) (row : List Value) : DataFrame :=
  if df.rows.any (fun r => r.1 = label) then
    ⟨df.header, df.rows.map (fun r => if r.1 = label then (label, row) else r)⟩
  else
    ⟨df.header, df.rows ++ [(label, row)]⟩

/-- `price_df.loc[len(price_df)] = new_entry` (`src/app.py:274`). -/
def manualAppend (df : DataFrame) (e : ManualEntry) : DataFrame :=
  locSet df df.rows.length (entryRow df e)

/-- `df.to_csv(PRICE_FILE, index=False)` (`src/app.py:275`): the header and
the rows without their index labels (cells round-trip per the conventions in
the header comment). -/
def persist (df : DataFrame) : StoredFrame :=
  ⟨df.header, df.rows.map Prod.snd⟩

/-- The widget state of one run of the Data Management tab. -/
structure Session where
  adminModeOn : Bool
  passwordInput : String
  uploadedFile : Option UploadBlob
  commitClicked : Bool
  manualSubmit : Option ManualEntry
deriving DecidableEq

/-- One run of tab 3 (`src/app.py:224`‑`280`) as a transition on the backing
file: nothing happens unless Enable Admin Mode is on and the password input
equals the admin secret; then Commit Changes writes the uploaded CSV and a
manual-entry submit writes the loaded DataFrame (`price_df`, loaded at
`src/app.py:125`) with the new row appended. -/
def tab3Step (secret : String) (s : Session) (price_df : DataFrame)
    (fs : BackingFile) : BackingFile :=
  if s.adminModeOn then
    if s.passwordInput = secret then
      let fs₁ := match s.uploadedFile with
        | some blob => if s.commitClicked then (commitChanges blob fs).1 else fs
        | none => fs
      match s.manualSubmit with
      | some e => .csv (persist (manualAppend price_df e))
      | none => fs₁
    else fs
  else fs

/-! ## Specification-side notions -/

/-- The specification's notion of the most recent record: a row of the
history whose date is greatest. -/
def IsMostRecent (df : DataFrame) (r : ℕ × List Value) : Prop :=
  r ∈ df.rows ∧ ∀ x ∈ df.rows, rowDate df x ≤ rowDate df r

instance (df : DataFrame) (r : ℕ × List Value) : Decidable (IsMostRecent df r) := by
  unfold IsMostRecent; infer_instance

/-! ## Helper lemmas -/

/-- Filtering an enumerated list with a function that ignores the index
keeps as many elements as the corresponding plain filter. -/
theorem length_filterMap_enumFrom {α β : Type} (g : ℕ × α → Option β)
    (p : α → Bool) (hg : ∀ i x, (g (i, x)).isSome = p x) :
    ∀ (l : List α) (n : ℕ),
      ((List.enumFrom n l).filterMap g).length = (l.filter p).length := by
  intro l
  induction l with
  | nil => intro n; rfl
  | cons a t ih =>
      intro n
      show (List.filterMap g ((n, a) :: List.enumFrom (n + 1) t)).length = _
      rw [List.filterMap_cons, List.filter_cons]
      cases hpa : p a with
      | false =>
          have hnone : g (n, a) = none := by
            have h := hg n a
            rw [hpa] at h
            exact Option.not_isSome_iff_eq_none.mp (by simp [h])
          rw [hnone]
          simp only [hpa, Bool.false_eq_true, if_false]
          exact ih (n + 1)
      | true =>
          have hsome : (g (n, a)).isSome := by rw [hg n a, hpa]
          obtain ⟨b, hb⟩ := Option.isSome_iff_exists.mp hsome
          rw [hb]
          simp only [hpa, if_true, List.length_cons]
          rw [ih (n + 1)]

/-- Every member of a list appears, with some index, in its enumeration. -/
theorem exists_mem_enumFrom_of_mem {α : Type} {x : α} :
    ∀ {l : List α} (n : ℕ), x ∈ l → ∃ i, (i, x) ∈ List.enumFrom n l := by
  intro l
  induction l with
  | nil => intro n h; cases h
  | cons a t ih =>
      intro n h
      rcases List.mem_cons.mp h with h | h
      · exact ⟨n, by rw [h]; exact List.mem_cons_self _ _⟩
      · obtain ⟨i, hi⟩ := ih (n + 1) h
        exact ⟨i, List.mem_cons_of_mem _ hi⟩

/-! ## Claim C1: the recommendation thresholds

The program compares against the IEEE-double product `avg_price * 1.15`.
The lemmas below evaluate the rounding at the inputs the claim names:
`fl 1.15` lies just below `1.15`, so for an average of `100` the computed
Sell threshold is `8092405580431359 / 2^46 = 114.99999999999998578…`,
strictly below the exact tie `115`; on the other side
`fl (100 * fl 0.85) = 85` exactly. -/

/-- `fl` on the binade `[2^e, 2^(e+1))` rounds at scale `2^(e-52)`. -/
theorem fl_eq_on_binade (x : ℚ) (e : ℤ) (h1 : (2:ℚ)^e ≤ x)
    (h2 : x < 2^(e+1)) :
    fl x = (rne (x / 2^(e-52)) : ℚ) * 2^(e-52) := by
  have hx : 0 < x := lt_of_lt_of_le (by positivity) h1
  have hlog : Int.log 2 x = e := by
    have ha := (Int.zpow_le_iff_le_log (b := 2) (x := e) (by norm_num)
      hx).mp (by exact_mod_cast h1)
    have hb := (Int.lt_zpow_iff_log_lt (b := 2) (x := e + 1) (by norm_num)
      hx).mp (by exact_mod_cast h2)
    omega
  unfold fl
  rw [if_neg (ne_of_gt hx), abs_of_pos hx, hlog]

/-- The 53-bit significand of the double nearest `1.15`. -/
theorem rne_arg_1_15 : rne (23 * 2^52 / 20 : ℚ) = 5179139571476070 := by
  have hf : ⌊(23 * 2^52 / 20 : ℚ)⌋ = 5179139571476070 := by
    rw [Int.floor_eq_iff]; norm_num
  unfold rne
  rw [hf, if_neg (by norm_num), round_eq, Int.floor_eq_iff]
  norm_num

/-- The double nearest the source literal `1.15` lies strictly below it. -/
theorem fl_1_15 : fl 1.15 = 5179139571476070 / 2^52 := by
  rw [fl_eq_on_binade 1.15 0 (by norm_num) (by norm_num),
    show ((1.15:ℚ) / 2 ^ ((0:ℤ)-52)) = 23 * 2^52 / 20 by norm_num,
    rne_arg_1_15]
  norm_num

/-- The 53-bit significand of the double nearest `0.85`. -/
theorem rne_arg_0_85 : rne (17 * 2^53 / 20 : ℚ) = 7656119366529843 := by
  have hf : ⌊(17 * 2^53 / 20 : ℚ)⌋ = 7656119366529843 := by
    rw [Int.floor_eq_iff]; norm_num
  unfold rne
  rw [hf, if_neg (by norm_num), round_eq, Int.floor_eq_iff]
  norm_num

/-- The double nearest the source literal `0.85`. -/
theorem fl_0_85 : fl 0.85 = 7656119366529843 / 2^53 := by
  rw [fl_eq_on_binade 0.85 (-1) (by norm_num) (by norm_num),
    show ((0.85:ℚ) / 2 ^ ((-1:ℤ)-52)) = 17 * 2^53 / 20 by norm_num,
    rne_arg_0_85]
  norm_num

/-- Significand of the double product `100 * fl 1.15` (the fraction `.375`
rounds down, one ulp below `115`). -/
theorem rne_arg_100_115 :
    rne (517913957147607000 / 64 : ℚ) = 8092405580431359 := by
  have hf : ⌊(517913957147607000 / 64 : ℚ)⌋ = 8092405580431359 := by
    rw [Int.floor_eq_iff]; norm_num
  unfold rne
  rw [hf, if_neg (by norm_num), round_eq, Int.floor_eq_iff]
  norm_num

/-- The program's Sell threshold for an average of `100`:
`100 * 1.15` in doubles is `8092405580431359 / 2^46`, one ulp below `115`. -/
theorem dmul_100_fl_1_15 :
    dmul 100 (fl 1.15) = 8092405580431359 / 2^46 := by
  unfold dmul
  rw [fl_1_15,
    show (100:ℚ) * (5179139571476070 / 2^52) = 517913957147607000/2^52
      by norm_num,
    fl_eq_on_binade _ 6 (by norm_num) (by norm_num),
    show ((517913957147607000/2^52 : ℚ) / 2 ^ ((6:ℤ)-52)) =
      517913957147607000 / 64 by norm_num,
    rne_arg_100_115]
  norm_num

/-- Significand of the double product `100 * fl 0.85` (the fraction `.84375`
rounds up, landing exactly on `85`). -/
theorem rne_arg_100_085 :
    rne (765611936652984300 / 128 : ℚ) = 5981343255101440 := by
  have hf : ⌊(765611936652984300 / 128 : ℚ)⌋ = 5981343255101439 := by
    rw [Int.floor_eq_iff]; norm_num
  unfold rne
  rw [hf, if_neg (by norm_num), round_eq, Int.floor_eq_iff]
  norm_num

/-- The program's Hold threshold for an average of `100`: `100 * 0.85` in
doubles is exactly `85`. -/
theorem dmul_100_fl_0_85 : dmul 100 (fl 0.85) = 85 := by
  unfold dmul
  rw [fl_0_85,
    show (100:ℚ) * (7656119366529843 / 2^53) = 765611936652984300/2^53
      by norm_num,
    fl_eq_on_binade _ 6 (by norm_num) (by norm_num),
    show ((765611936652984300/2^53 : ℚ) / 2 ^ ((6:ℤ)-52)) =
      765611936652984300 / 128 by norm_num,
    rne_arg_100_085]
  norm_num

/-- C1 counterexample.  At the claim's own highlighted input the current
price `115` is the exact mathematical tie `100 * 1.15`, yet the program
renders Good to Sell, because the double product `100 * 1.15` rounds to
`114.99999999999998578… < 115`: the tie does not resolve to Stable. -/
theorem recommend_exact_tie_sells_cex :
    (115 : ℚ) = 100 * 1.15 ∧ recommend 115 100 = .sell ∧
    Recommendation.sell ≠ .stable := by
  refine ⟨by norm_num, ?_, by decide⟩
  unfold recommend
  rw [dmul_100_fl_1_15, if_pos (by norm_num)]

/-- C1 amended.  The recommendation is Sell when `current` exceeds the
double-precision product `average * 1.15`, else Hold when `current` is below
the double-precision product `average * 0.85`, and Stable otherwise; ties at
the computed thresholds resolve to Stable.  For an average of `100` the
computed Sell threshold lies strictly below the exact `100 * 1.15`, so
`recommend 116 100 = sell`, `recommend 84 100 = hold`,
`recommend 100 100 = stable`, but `recommend 115 100 = sell`. -/
theorem recommend_float_threshold_spec (current average : ℚ) :
    (current > dmul average (fl 1.15) → recommend current average = .sell) ∧
    (current ≤ dmul average (fl 1.15) → current < dmul average (fl 0.85) →
      recommend current average = .hold) ∧
    (current ≤ dmul average (fl 1.15) → dmul average (fl 0.85) ≤ current →
      recommend current average = .stable) ∧
    dmul 100 (fl 1.15) < 100 * 1.15 ∧
    recommend 116 100 = .sell ∧ recommend 84 100 = .hold ∧
    recommend 100 100 = .stable ∧ recommend 115 100 = .sell := by
  refine ⟨fun h => ?_, fun h1 h2 => ?_, fun h1 h2 => ?_, ?_, ?_, ?_, ?_, ?_⟩
  · unfold recommend
    rw [if_pos h]
  · unfold recommend
    rw [if_neg (not_lt.mpr h1), if_pos h2]
  · unfold recommend
    rw [if_neg (not_lt.mpr h1), if_neg (not_lt.mpr h2)]
  · rw [dmul_100_fl_1_15]; norm_num
  · unfold recommend
    rw [dmul_100_fl_1_15, if_pos (by norm_num)]
  · unfold recommend
    rw [dmul_100_fl_1_15, dmul_100_fl_0_85, if_neg (by norm_num),
      if_pos (by norm_num)]
  · unfold recommend
    rw [dmul_100_fl_1_15, dmul_100_fl_0_85, if_neg (by norm_num),
      if_neg (by norm_num)]
  · unfold recommend
    rw [dmul_100_fl_1_15, if_pos (by norm_num)]

/-- Witness for the amended C1, exercising each conditional branch at the
concrete inputs the claim names. -/
theorem recommend_float_threshold_spec_witness :
    recommend 116 100 = .sell ∧ recommend 84 100 = .hold ∧
    recommend 100 100 = .stable :=
  ⟨(recommend_float_threshold_spec 116 100).1
      (by rw [dmul_100_fl_1_15]; norm_num),
   (recommend_float_threshold_spec 84 100).2.1
      (by rw [dmul_100_fl_1_15]; norm_num)
      (by rw [dmul_100_fl_0_85]; norm_num),
   (recommend_float_threshold_spec 100 100).2.2.1
      (by rw [dmul_100_fl_1_15]; norm_num)
      (by rw [dmul_100_fl_0_85]; norm_num)⟩

/-! ## Claim C5: missing backing file falls back to the documented constants -/

/-- C5.  When the backing file does not exist, loading does not raise: it
returns a single-record history dated today whose commodity values are the
documented fallback constants, and signals the store-missing warning. -/
theorem load_fallback_when_store_missing (today : ℕ) :
    load_price_data today .missing =
      (⟨["Date", "Wheat", "Rice", "Potatoes", "Tomatoes"],
        [(0, [.date today, .num (FALLBACK_PRICES .Wheat),
              .num (FALLBACK_PRICES .Rice), .num (FALLBACK_PRICES .Potatoes),
              .num (FALLBACK_PRICES .Tomatoes)])]⟩, .storeMissing) ∧
    ∀ c, latestValue (load_price_data today .missing).1 c =
        some (FALLBACK_PRICES c) :=
  ⟨rfl, fun c => by cases c <;> rfl⟩

/-! ## Claim C8: a present file without a Date column -/

/-- C8.  When the backing file exists but its (stripped) header has no Date
column, loading fails with the missing-Date-column error shown to the
operator and returns the empty history; nothing is written (loading never
writes). -/
theorem load_fails_without_date_column (today : ℕ) (f : StoredFrame)
    (hd : "Date" ∉ stripHeader f.header) :
    load_price_data today (.csv f) = (emptyDF, .missingDateColumn) := by
  simp [load_price_data, hd]

/-- Witness for C8: a file whose only column is `Day`. -/
theorem load_fails_without_date_column_witness :
    load_price_data 0 (.csv ⟨["Day"], [[Value.date 3]]⟩) =
      (emptyDF, .missingDateColumn) :=
  load_fails_without_date_column 0 ⟨["Day"], [[Value.date 3]]⟩ (by decide)

/-! ## Claim C10: the dashboard's fallback on an empty loaded history -/

/-- C10.  Whenever loading returns an empty history (Date column missing, or
any unexpected read failure), the dashboard's per-commodity latest value is
the static fallback constant for that commodity instead of a failure. -/
theorem latest_falls_back_on_empty_history (today : ℕ) (f : StoredFrame)
    (c : Commodity) (hd : "Date" ∉ stripHeader f.header) :
    latestValue (load_price_data today (.csv f)).1 c =
        some (FALLBACK_PRICES c) ∧
    latestValue (load_price_data today .unreadable).1 c =
        some (FALLBACK_PRICES c) ∧
    latestValue emptyDF c = some (FALLBACK_PRICES c) := by
  have h : load_price_data today (.csv f) = (emptyDF, .missingDateColumn) := by
    simp [load_price_data, hd]
  exact ⟨by rw [h]; rfl, rfl, rfl⟩

/-- Witness for C10 on a concrete Date-less file. -/
theorem latest_falls_back_on_empty_history_witness :
    latestValue (load_price_data 0 (.csv ⟨["Day"], []⟩)).1 .Wheat =
        some (FALLBACK_PRICES .Wheat) ∧
    latestValue (load_price_data 0 .unreadable).1 .Wheat =
        some (FALLBACK_PRICES .Wheat) ∧
    latestValue emptyDF .Wheat = some (FALLBACK_PRICES .Wheat) :=
  latest_falls_back_on_empty_history 0 ⟨["Day"], []⟩ .Wheat (by decide)

/-! ## Claim C9: no write without the admin password -/

/-- C9.  In any session state whose password input differs from the admin
secret, one run of the Data Management tab leaves the backing file
untouched, whatever upload or manual entry the session holds: equality with
the secret is what grants write access. -/
theorem no_write_without_admin_password (secret : String) (s : Session)
    (price_df : DataFrame) (fs : BackingFile)
    (h : s.passwordInput ≠ secret) :
    tab3Step secret s price_df fs = fs := by
  unfold tab3Step
  by_cases ha : s.adminModeOn
  · simp [ha, h]
  · simp [ha]

/-- Witness for C9: admin mode on, wrong password, a pending upload with
Commit clicked and a submitted manual entry, yet the file is unchanged. -/
theorem no_write_without_admin_password_witness :
    tab3Step "farmconnect2024"
      ⟨true, "letmein", some (.csv ⟨["Date"], [[Value.date 9]]⟩), true,
        some ⟨9, 1, 2, 3, 4⟩⟩
      emptyDF (.csv ⟨["Date"], []⟩) = .csv ⟨["Date"], []⟩ :=
  no_write_without_admin_password "farmconnect2024"
    ⟨true, "letmein", some (.csv ⟨["Date"], [[Value.date 9]]⟩), true,
      some ⟨9, 1, 2, 3, 4⟩⟩
    emptyDF (.csv ⟨["Date"], []⟩) (by decide)

/-! ## Claim C3: the upload path does not validate the schema -/

/-- A well-formed previously persisted file, used to exhibit the missing
validation of the upload path. -/
def C3previous : StoredFrame :=
  ⟨["Date", "Wheat", "Rice", "Potatoes", "Tomatoes"],
   [[.date 1, .num 2000, .num 3000, .num 800, .num 1200]]⟩

/-- An uploaded history whose header lacks the required Tomatoes column. -/
def C3missingColumn : StoredFrame :=
  ⟨["Date", "Wheat", "Rice", "Potatoes"],
   [[.date 2, .num 2100, .num 3100, .num 900]]⟩

/-- C3 counterexample.  Committing an uploaded history that misses the
required Tomatoes column does not fail with a schema mismatch, and it does
overwrite the previously persisted file: the claimed validation does not
exist in the code. -/
theorem commit_missing_column_not_rejected :
    "Tomatoes" ∉ C3missingColumn.header ∧
    (commitChanges (.csv C3missingColumn) (.csv C3previous)).2 ≠
      .schemaMismatch ∧
    (commitChanges (.csv C3missingColumn) (.csv C3previous)).1 ≠
      .csv C3previous := by decide

/-- C3 amended.  The Commit Changes handler performs no schema validation:
any readable uploaded CSV — even one missing a required commodity column —
overwrites the backing file verbatim and reports success; only an upload
that `read_csv` cannot parse is rejected, leaving the file unchanged. -/
theorem commit_overwrites_without_validation (f : StoredFrame)
    (fs : BackingFile) (hmiss : "Tomatoes" ∉ f.header) :
    (commitChanges (.csv f) fs).1 = .csv f ∧
    (commitChanges (.csv f) fs).2 = .success ∧
    commitChanges .unreadable fs = (fs, .readError) :=
  ⟨rfl, rfl, rfl⟩

/-- Witness for the amended C3 on the concrete frames above. -/
theorem commit_overwrites_without_validation_witness :
    (commitChanges (.csv C3missingColumn) (.csv C3previous)).1 =
        .csv C3missingColumn ∧
    (commitChanges (.csv C3missingColumn) (.csv C3previous)).2 = .success ∧
    commitChanges .unreadable (.csv C3previous) =
        (.csv C3previous, .readError) :=
  commit_overwrites_without_validation C3missingColumn (.csv C3previous)
    (by decide)

/-! ## Claim C2: "latest" is positional, not by greatest date -/

/-- A loaded history whose stored row order is not chronological: the first
row is dated later than the second. -/
def C2unsorted : DataFrame :=
  ⟨["Date", "Wheat", "Rice", "Potatoes", "Tomatoes"],
   [(0, [.date 2, .num 10, .num 1, .num 1, .num 1]),
    (1, [.date 1, .num 20, .num 2, .num 2, .num 2])]⟩

/-- C2 counterexample.  On a non-chronological history the record with the
greatest date is the first row (Wheat 10), but the code returns the
positionally last row's value (Wheat 20): "latest" does not return the value
of the most recent record. -/
theorem latest_not_most_recent_cex :
    IsMostRecent C2unsorted (0, [.date 2, .num 10, .num 1, .num 1, .num 1]) ∧
    rowPrice C2unsorted [.date 2, .num 10, .num 1, .num 1, .num 1] .Wheat =
        some 10 ∧
    latestValue C2unsorted .Wheat = some 20 ∧ (10 : ℚ) ≠ 20 := by decide

/-- C2 amended.  `latest` returns the value of the positionally last row;
only when the stored dates are non-decreasing in row order (the documented
storage invariant) is that row guaranteed to be a most recent record. -/
theorem latest_is_positional_last (df : DataFrame) (c : Commodity)
    (pre : List (ℕ × List Value)) (r : ℕ × List Value) (q : ℚ)
    (hrows : df.rows = pre ++ [r])
    (hq : rowPrice df r.2 c = some q) :
    latestValue df c = some q ∧
    ((df.rows.map (rowDate df)).Sorted (· ≤ ·) → IsMostRecent df r) := by
  constructor
  · unfold latestValue
    rw [hrows, List.getLast?_concat]
    exact hq
  · intro hsort
    rw [hrows, List.map_append] at hsort
    refine ⟨by rw [hrows]; exact List.mem_append_right _ (by simp), ?_⟩
    intro x hx
    have hall := (List.pairwise_append.mp hsort).2.2
    rcases List.mem_append.mp (hrows ▸ hx) with hx | hx
    · exact hall _ (List.mem_map_of_mem _ hx) _ (by simp)
    · rw [List.mem_singleton.mp hx]

/-- A chronologically stored history for the amended C2. -/
def C2sorted : DataFrame :=
  ⟨["Date", "Wheat", "Rice", "Potatoes", "Tomatoes"],
   [(0, [.date 1, .num 20, .num 2, .num 2, .num 2]),
    (1, [.date 2, .num 10, .num 1, .num 1, .num 1])]⟩

/-- Witness for the amended C2 on a sorted concrete history. -/
theorem latest_is_positional_last_witness :
    latestValue C2sorted .Wheat = some 10 ∧
    IsMostRecent C2sorted (1, [.date 2, .num 10, .num 1, .num 1, .num 1]) :=
  ⟨(latest_is_positional_last C2sorted .Wheat
      [(0, [.date 1, .num 20, .num 2, .num 2, .num 2])]
      (1, [.date 2, .num 10, .num 1, .num 1, .num 1]) 10 rfl (by decide)).1,
   (latest_is_positional_last C2sorted .Wheat
      [(0, [.date 1, .num 20, .num 2, .num 2, .num 2])]
      (1, [.date 2, .num 10, .num 1, .num 1, .num 1]) 10 rfl (by decide)).2
     (by decide)⟩

/-! ## Claim C7: the previous-price delta -/

/-- C7.  On a history stored chronologically with a strictly most recent
record `r₁` and a second-most-recent record `r₂`, the delta is the latest
value minus the second-most-recent value; and with fewer than two records
the delta is `0`. -/
theorem previousDelta_spec (df : DataFrame) (c : Commodity) :
    (∀ pre r₂ r₁ q₁ q₂,
      df.rows = pre ++ [r₂, r₁] →
      (∀ x ∈ pre ++ [r₂], rowDate df x < rowDate df r₁) →
      (∀ x ∈ pre, rowDate df x < rowDate df r₂) →
      rowPrice df r₁.2 c = some q₁ →
      rowPrice df r₂.2 c = some q₂ →
      previousDelta df c = some (q₁ - q₂)) ∧
    (df.rows.length < 2 → previousDelta df c = some 0) := by
  constructor
  · intro pre r₂ r₁ q₁ q₂ hrows hd1 hd2 hp₁ hp₂
    have hlen : df.rows.length = pre.length + 2 := by rw [hrows]; simp
    have hlast : df.rows.getLast? = some r₁ := by
      rw [hrows, show pre ++ [r₂, r₁] = (pre ++ [r₂]) ++ [r₁] by simp,
        List.getLast?_concat]
    have hget : df.rows.get? (df.rows.length - 2) = some r₂ := by
      rw [hrows, show (pre ++ [r₂, r₁]).length - 2 = pre.length by simp,
        List.get?_append_right (le_refl pre.length)]
      simp
    unfold previousDelta latestValue
    rw [if_pos (by omega), hlast, hget]
    simp [hp₁, hp₂]
  · intro hlen
    unfold previousDelta
    rw [if_neg (by omega)]

/-- A two-record chronological history and a single-record history for the
C7 witness. -/
def C7two : DataFrame :=
  ⟨["Date", "Wheat", "Rice", "Potatoes", "Tomatoes"],
   [(0, [.date 1, .num 20, .num 1, .num 1, .num 1]),
    (1, [.date 2, .num 30, .num 2, .num 2, .num 2])]⟩

/-- Single-record history for the C7 witness. -/
def C7one : DataFrame :=
  ⟨["Date", "Wheat", "Rice", "Potatoes", "Tomatoes"],
   [(0, [.date 1, .num 20, .num 1, .num 1, .num 1])]⟩

/-- Witness for C7: delta `30 − 20` on the two-record history, `0` on the
single-record history. -/
theorem previousDelta_spec_witness :
    previousDelta C7two .Wheat = some (30 - 20) ∧
    previousDelta C7one .Wheat = some 0 :=
  ⟨(previousDelta_spec C7two .Wheat).1
      [] (0, [.date 1, .num 20, .num 1, .num 1, .num 1])
      (1, [.date 2, .num 30, .num 2, .num 2, .num 2]) 30 20 rfl
      (by decide) (by decide) (by decide) (by decide),
   (previousDelta_spec C7one .Wheat).2 (by decide)⟩

/-! ## Claim C4: unparseable-date rows are dropped individually -/

/-- C4.  Loading a present file whose (stripped) header has a Date column
succeeds, returns exactly as many records as the file has rows with a
parseable date (every unparseable-date row is dropped individually, never
failing the whole load), and every returned record carries a parsed date. -/
theorem load_keeps_exactly_parseable_rows (today : ℕ) (f : StoredFrame)
    (hd : "Date" ∈ stripHeader f.header) :
    (load_price_data today (.csv f)).2 = .ok ∧
    (load_price_data today (.csv f)).1.rows.length =
      (f.rows.filter (fun cells =>
        ((cells.get? (dateIdx (stripHeader f.header))).bind
          parseDateCell).isSome)).length ∧
    ∀ r ∈ (load_price_data today (.csv f)).1.rows,
      ∃ d, r.2.get? (dateIdx (stripHeader f.header)) = some (.date d) := by
  have hload : load_price_data today (.csv f) =
      (⟨stripHeader f.header,
        f.rows.enum.filterMap (convertRow (dateIdx (stripHeader f.header)))⟩,
       .ok) := by
    simp [load_price_data, hd]
  refine ⟨by rw [hload], ?_, ?_⟩
  · rw [hload]
    exact length_filterMap_enumFrom _ _
      (fun i x => by
        unfold convertRow
        cases h : (x.get? (dateIdx (stripHeader f.header))).bind parseDateCell <;>
          simp [h])
      f.rows 0
  · rw [hload]
    intro r hr
    obtain ⟨⟨i, cells⟩, _hmem, hconv⟩ := List.mem_filterMap.mp hr
    unfold convertRow at hconv
    cases h : (cells.get? (dateIdx (stripHeader f.header))).bind parseDateCell with
    | none => rw [h] at hconv; cases hconv
    | some d =>
        rw [h] at hconv
        cases hconv
        refine ⟨d, ?_⟩
        obtain ⟨v, hv, _⟩ := Option.bind_eq_some.mp h
        have hlt : dateIdx (stripHeader f.header) < cells.length :=
          (List.get?_eq_some.mp hv).1
        show (cells.set (dateIdx (stripHeader f.header)) (.date d)).get? _ = _
        rw [List.get?_eq_getElem?, List.getElem?_set_self hlt]

/-- A file with two parseable-date rows and one unparseable row for the C4
witness. -/
def C4file : StoredFrame :=
  ⟨["Date", "Wheat", "Rice", "Potatoes", "Tomatoes"],
   [[.date 1, .num 10, .num 1, .num 1, .num 1],
    [.str "not a date", .num 99, .num 9, .num 9, .num 9],
    [.date 2, .num 20, .num 2, .num 2, .num 2]]⟩

/-- Witness for C4: the three-row file with one unparseable date loads to
exactly two records. -/
theorem load_keeps_exactly_parseable_rows_witness :
    (load_price_data 7 (.csv C4file)).2 = .ok ∧
    (load_price_data 7 (.csv C4file)).1.rows.length = 2 := by
  have h := load_keeps_exactly_parseable_rows 7 C4file (by decide)
  exact ⟨h.1, by rw [h.2.1]; decide⟩

/-! ## Claim C6: manual append followed by load round-trips -/

/-- C6.  For any loaded history with the standard columns and any submitted
manual entry, persisting the appended history and loading it back succeeds
and yields a history containing the newly appended record with exactly the
submitted date and prices. -/
theorem manual_append_load_roundtrip (today : ℕ) (df : DataFrame)
    (e : ManualEntry)
    (hh : df.header = ["Date", "Wheat", "Rice", "Potatoes", "Tomatoes"]) :
    (load_price_data today (.csv (persist (manualAppend df e)))).2 = .ok ∧
    ∃ lab, (lab, [Value.date e.date, Value.num e.wheat, Value.num e.rice,
        Value.num e.potatoes, Value.num e.tomatoes]) ∈
      (load_price_data today (.csv (persist (manualAppend df e)))).1.rows := by
  have hentry : entryRow df e =
      [Value.date e.date, Value.num e.wheat, Value.num e.rice,
       Value.num e.potatoes, Value.num e.tomatoes] := by
    rw [entryRow, hh]
    simp [entryValue]
  have hah : (manualAppend df e).header = df.header := by
    unfold manualAppend locSet
    split <;> rfl
  have hstrip : stripHeader (persist (manualAppend df e)).header =
      ["Date", "Wheat", "Rice", "Potatoes", "Tomatoes"] := by
    rw [show (persist (manualAppend df e)).header = (manualAppend df e).header
        from rfl, hah, hh]
    decide
  have hmem : (df.rows.length, entryRow df e) ∈ (manualAppend df e).rows := by
    unfold manualAppend locSet
    cases hc : df.rows.any (fun r => r.1 = df.rows.length) with
    | false =>
        rw [if_neg (by simp)]
        simp
    | true =>
        rw [if_pos rfl]
        obtain ⟨r₀, hr₀m, hr₀⟩ := List.any_eq_true.mp hc
        exact List.mem_map.mpr ⟨r₀, hr₀m,
          by rw [if_pos (of_decide_eq_true hr₀)]⟩
  have hmem₂ : entryRow df e ∈ (persist (manualAppend df e)).rows :=
    List.mem_map_of_mem Prod.snd hmem
  have hdmem : "Date" ∈ stripHeader (persist (manualAppend df e)).header := by
    rw [hstrip]; decide
  have hload : load_price_data today (.csv (persist (manualAppend df e))) =
      (⟨stripHeader (persist (manualAppend df e)).header,
        (persist (manualAppend df e)).rows.enum.filterMap
          (convertRow
            (dateIdx (stripHeader (persist (manualAppend df e)).header)))⟩,
       .ok) := by
    simp [load_price_data, hdmem]
  have hdi : dateIdx (stripHeader (persist (manualAppend df e)).header) = 0 := by
    rw [hstrip]; decide
  refine ⟨by rw [hload], ?_⟩
  rw [hload, hdi]
  rw [hentry] at hmem₂
  obtain ⟨i, hi⟩ := exists_mem_enumFrom_of_mem 0 hmem₂
  refine ⟨i, List.mem_filterMap.mpr
    ⟨(i, [Value.date e.date, Value.num e.wheat, Value.num e.rice,
          Value.num e.potatoes, Value.num e.tomatoes]), hi, rfl⟩⟩

/-- A one-record standard history for the C6 witness. -/
def C6df : DataFrame :=
  ⟨["Date", "Wheat", "Rice", "Potatoes", "Tomatoes"],
   [(0, [.date 1, .num 2000, .num 3000, .num 800, .num 1200])]⟩

/-- Witness for C6: appending the entry dated 5 with prices 1, 2, 3, 4 to a
one-record history and reloading yields a history containing that exact
record. -/
theorem manual_append_load_roundtrip_witness :
    (load_price_data 9 (.csv (persist (manualAppend C6df ⟨5, 1, 2, 3, 4⟩)))).2 =
        .ok ∧
    ∃ lab, (lab, [Value.date 5, Value.num 1, Value.num 2, Value.num 3,
        Value.num 4]) ∈
      (load_price_data 9
        (.csv (persist (manualAppend C6df ⟨5, 1, 2, 3, 4⟩)))).1.rows :=
  manual_append_load_roundtrip 9 C6df ⟨5, 1, 2, 3, 4⟩ rfl
